import Mathlib

/-!
Verification of the sense → filter → actuate pipeline implemented in
`src/assignment5/src/main.c` (Zephyr application with three threads).

The embedding below is a shallow model of the C code:

* Thread A (`thread_A_code`, lines 193-221): samples the ADC, validates the
  reading, writes the shared variable `ab`, gives the semaphore `sem_ab`,
  and sleeps until the next release instant.
* Thread B (`thread_B_code`, lines 237-302): on each semaphore release it
  rotates the 10-entry array `dados`, computes a first average `Avg` over
  the non-zero entries, recomputes the average over the entries inside the
  ±10% band around the first average, and writes the result to `bc`.
* Thread C (`thread_C_code`, lines 312-349): converts `bc` to a PWM duty
  with 32-bit unsigned arithmetic `(pwmPeriod_us*bc)/1023`.

C `int` values are modelled as `Int`; C `int` division is `Int.tdiv`
(truncation toward zero).  The 32-bit unsigned PWM computation is modelled
on `Nat` with an explicit reduction modulo `2 ^ 32`.
-/

namespace Assignment5

/-- Number of samples kept by the filter window (`#define dados_size 10`). -/
def dados_size : Nat := 10

/-- Sampler period in milliseconds (`#define SAMP_PERIOD_MS 1000`). -/
def SAMP_PERIOD_MS : Int := 1000

/-- Maximum valid raw ADC value (10-bit resolution, literal `1023` in the code). -/
def MAX_RAW : Int := 1023

/-- Initial value of the shared variable `ab` (`int ab = 0;`, line 83). -/
def ab_init : Int := 0

/-- Initial value of the shared variable `bc` (`int bc = 0;`, line 84). -/
def bc_init : Int := 0

/-- One window update of thread B (lines 252-259 of `main.c`):

```
dados[0] = ab;                       -- step (1)
x = dados[dados_size-1];             -- step (2)
for(l = dados_size-1; l > 0; l--)    -- step (3): shift right,
    dados[l] = dados[l-1];           --   dropping the last element
dados[0] = x;                        -- step (4)
```

Step (1) turns the array `d` into `e = ab :: d.tail`; step (2) stores the
last element of `e`; step (3) turns `e` into `e.headD 0 :: e.dropLast`;
step (4) overwrites the head with the stored last element, yielding
`e.getLastD 0 :: e.dropLast`.  For a window of length 10 the result is
`[d₉, ab, d₁, d₂, …, d₈]`: the previous `d₀` is discarded and the new
sample ends up at index 1, not index 0. -/
def consume (ab : Int) (d : List Int) : List Int :=
  let e := ab :: d.tail
  e.getLastD 0 :: e.dropLast

/-- Iterated window update: thread B consumes the published samples `s`
in order, starting from window `d`. -/
def consumeAll (s : List Int) (d : List Int) : List Int :=
  s.foldl (fun w a => consume a w) d

/-- The non-zero window entries summed and counted by pass 1
(lines 262-269: `if(dados[i] != 0){ sum1 += dados[i]; cnt1++; }`). -/
def nonzeros (d : List Int) : List Int :=
  d.filter (fun v => decide (v ≠ 0))

/-- Pass-1 average (lines 262-275): `Avg = sum1/cnt1` when `cnt1 != 0`,
else `Avg = 0`.  C `int` division truncates toward zero, hence `Int.tdiv`. -/
def avg1 (d : List Int) : Int :=
  if (nonzeros d).length ≠ 0 then
    Int.tdiv (nonzeros d).sum ((nonzeros d).length : Int)
  else 0

/-- Pass-2 exclusion test (line 281):

```
dados[j] < (Avg - Avg*0.1) || dados[j] > (Avg + Avg*0.1)
```

The C code evaluates the band bounds in IEEE-754 `double` arithmetic.
For every pair of integers `avg, v ∈ [0, 1023]` — the full range reachable
by the program, since window entries and both averages always lie in
`[0, 1023]` — the `double` comparisons agree with the exact rational
comparisons `v < (9/10)·avg` and `v > (11/10)·avg` (checked exhaustively
over all 1024 × 1024 pairs), so the embedding uses the exact integer form
scaled by 10. -/
def excluded (avg v : Int) : Bool :=
  decide (10 * v < 9 * avg) || decide (11 * avg < 10 * v)

/-- The window entries retained by pass 2 (lines 280-287): entry `dados[j]`
is added to `sum2`/`cnt2` exactly when the exclusion test is false. -/
def retained (d : List Int) (avg : Int) : List Int :=
  d.filter (fun v => ! excluded avg v)

/-- Pass-2 average (lines 280-293): `Avg = sum2/cnt2` when `cnt2 != 0`,
else `Avg = 0`; the band is fixed by the pass-1 average computed before the
pass and is not updated while the pass runs. -/
def avg2 (d : List Int) : Int :=
  let keep := retained d (avg1 d)
  if keep.length ≠ 0 then Int.tdiv keep.sum (keep.length : Int) else 0

/-- One full iteration of thread B (lines 248-300): consume the mailbox
value `ab` into the window, then compute the two-pass trimmed mean and
publish it as `bc`.  Returns the new window and the published value. -/
def thread_B_step (ab : Int) (d : List Int) : List Int × Int :=
  let d' := consume ab d
  (d', avg2 d')

/-- One iteration of thread A's sampling and publishing (lines 196-213).
`read` is the result of `adc_sample()` together with the sampled buffer
value: `none` models a failed read, `some v` a successful read of `v`
(`adc_sample_buffer[0]`, an unsigned 16-bit value).  The first component is
the value of `ab` after the iteration; the second records whether
`k_sem_give(&sem_ab)` was executed — the code gives the semaphore on every
iteration, after the `if`/`else` validation chain. -/
def thread_A_cycle (ab : Int) (read : Option Nat) : Int × Bool :=
  match read with
  | none => (ab, true)
  | some v => (if 1023 < v then ab else (v : Int), true)

/-- Thread A's end-of-cycle timing step (lines 216-220):

```
fin_time = k_uptime_get();
if( fin_time < release_time) {
    k_msleep(release_time - fin_time);
    release_time += SAMP_PERIOD_MS;
}
```

Returns the new `release_time` and whether the thread slept.  Both the
sleep and the advance of `release_time` happen only when
`fin_time < release_time`. -/
def thread_A_timing (release_time fin_time : Int) : Int × Bool :=
  if fin_time < release_time then (release_time + SAMP_PERIOD_MS, true)
  else (release_time, false)

/-- PWM period in microseconds (`unsigned int pwmPeriod_us = 1000;`, line 318). -/
def pwmPeriod_us : Nat := 1000

/-- Thread C's duty computation (lines 340-341):
`(unsigned int)((pwmPeriod_us*bc)/1023)`.  `pwmPeriod_us` is `unsigned int`,
so the multiplication and division are carried out in 32-bit unsigned
arithmetic, modelled by the explicit reduction modulo `2 ^ 32`. -/
def pwm_duty (bc : Nat) : Nat :=
  (pwmPeriod_us * bc) % 2 ^ 32 / 1023

/-! ### Helper lemmas -/

/-- A list of length 10 is a literal ten-element list. -/
theorem exists_len_ten (w : List Int) (h : w.length = 10) :
    ∃ a0 a1 a2 a3 a4 a5 a6 a7 a8 a9 : Int,
      w = [a0, a1, a2, a3, a4, a5, a6, a7, a8, a9] := by
  rcases w with _ | ⟨a0, w⟩; · simp at h
  rcases w with _ | ⟨a1, w⟩; · simp at h
  rcases w with _ | ⟨a2, w⟩; · simp at h
  rcases w with _ | ⟨a3, w⟩; · simp at h
  rcases w with _ | ⟨a4, w⟩; · simp at h
  rcases w with _ | ⟨a5, w⟩; · simp at h
  rcases w with _ | ⟨a6, w⟩; · simp at h
  rcases w with _ | ⟨a7, w⟩; · simp at h
  rcases w with _ | ⟨a8, w⟩; · simp at h
  rcases w with _ | ⟨a9, w⟩; · simp at h
  rcases w with _ | ⟨a10, w⟩
  · exact ⟨a0, a1, a2, a3, a4, a5, a6, a7, a8, a9, rfl⟩
  · simp at h

/-- The window update preserves the window length 10. -/
theorem consume_length (a : Int) (d : List Int) (h : d.length = 10) :
    (consume a d).length = 10 := by
  simp [consume]; omega

/-- Iterated window updates preserve the window length 10. -/
theorem consumeAll_length (s : List Int) : ∀ d : List Int, d.length = 10 →
    (consumeAll s d).length = 10 := by
  induction s with
  | nil => intro d h; simpa [consumeAll] using h
  | cons a s ih =>
      intro d h
      have hstep : consumeAll (a :: s) d = consumeAll s (consume a d) := rfl
      rw [hstep]
      exact ih _ (consume_length a d h)

/-- Consuming a concatenation of sample sequences is consuming them in turn. -/
theorem consumeAll_append (t u d : List Int) :
    consumeAll (t ++ u) d = consumeAll u (consumeAll t d) := by
  simp [consumeAll, List.foldl_append]

/-- Consuming ten samples `u0 … u9` into any ten-entry window flushes the old
window completely: the result is `[u0, u9, u8, …, u1]` — the oldest of the
last ten samples at index 0, the newest at index 1, descending recency from
there, wrapping around. -/
theorem consumeAll_ten (u0 u1 u2 u3 u4 u5 u6 u7 u8 u9
    d0 d1 d2 d3 d4 d5 d6 d7 d8 d9 : Int) :
    consumeAll [u0, u1, u2, u3, u4, u5, u6, u7, u8, u9]
        [d0, d1, d2, d3, d4, d5, d6, d7, d8, d9] =
      [u0, u9, u8, u7, u6, u5, u4, u3, u2, u1] := rfl

/-- `getLastD` of a non-empty list is a member of the list. -/
theorem getLastD_mem (l : List Int) (x : Int) (h : l ≠ []) : l.getLastD x ∈ l := by
  induction l generalizing x with
  | nil => simp at h
  | cons a l ih =>
      cases l with
      | nil => simp
      | cons b l => simpa using Or.inr (ih x (by simp))

/-- Every entry of the updated window is the new sample or an old entry. -/
theorem consume_mem (a : Int) (d : List Int) (v : Int) (hv : v ∈ consume a d) :
    v = a ∨ v ∈ d := by
  have hv' : v = (a :: d.tail).getLastD 0 ∨ v ∈ (a :: d.tail).dropLast := by
    simpa [consume] using hv
  have key : ∀ w, w ∈ a :: d.tail → w = a ∨ w ∈ d := by
    intro w hw
    rcases List.mem_cons.mp hw with h | h
    · exact Or.inl h
    · exact Or.inr (List.mem_of_mem_tail h)
  rcases hv' with h | h
  · refine key v ?_
    rw [h]
    exact getLastD_mem _ 0 (by simp)
  · exact key v ((List.dropLast_sublist _).subset h)

/-- A truncating integer mean of values in `[0, 1023]` lies in `[0, 1023]`. -/
theorem mean_bounds (l : List Int) (h : ∀ v ∈ l, 0 ≤ v ∧ v ≤ 1023)
    (hne : l.length ≠ 0) :
    0 ≤ Int.tdiv l.sum (l.length : Int) ∧ Int.tdiv l.sum (l.length : Int) ≤ 1023 := by
  have hs0 : 0 ≤ l.sum := List.sum_nonneg fun v hv => (h v hv).1
  have hlen : (0 : Int) < (l.length : Int) := by exact_mod_cast Nat.pos_of_ne_zero hne
  rw [Int.tdiv_eq_ediv hs0 (le_of_lt hlen)]
  constructor
  · exact Int.ediv_nonneg hs0 (le_of_lt hlen)
  · have hle : l.sum ≤ (l.length : Int) * 1023 := by
      have hcard := List.sum_le_card_nsmul l 1023 fun v hv => (h v hv).2
      simpa [nsmul_eq_mul] using hcard
    calc l.sum / (l.length : Int) ≤ ((l.length : Int) * 1023) / (l.length : Int) :=
          Int.ediv_le_ediv hlen hle
      _ = 1023 := Int.mul_ediv_cancel_left _ (ne_of_gt hlen)

/-- The pass-2 exclusion test, written with exact integer arithmetic, agrees
with the exact rational band bounds `(9/10)·avg` and `(11/10)·avg`. -/
theorem excluded_iff (avg v : Int) :
    excluded avg v = true ↔
      ((v : ℚ) < 9 / 10 * (avg : ℚ) ∨ 11 / 10 * (avg : ℚ) < (v : ℚ)) := by
  have h1 : ((v : ℚ) < 9 / 10 * (avg : ℚ)) ↔ (10 * v < 9 * avg) := by
    rw [div_mul_eq_mul_div, lt_div_iff₀ (by norm_num : (0 : ℚ) < 10)]
    rw [show ((v : ℚ) * 10) = ((10 * v : ℤ) : ℚ) by push_cast; ring]
    rw [show (9 * (avg : ℚ)) = ((9 * avg : ℤ) : ℚ) by push_cast; ring]
    exact Int.cast_lt
  have h2 : (11 / 10 * (avg : ℚ) < (v : ℚ)) ↔ (11 * avg < 10 * v) := by
    rw [div_mul_eq_mul_div, div_lt_iff₀ (by norm_num : (0 : ℚ) < 10)]
    rw [show ((v : ℚ) * 10) = ((10 * v : ℤ) : ℚ) by push_cast; ring]
    rw [show (11 * (avg : ℚ)) = ((11 * avg : ℤ) : ℚ) by push_cast; ring]
    exact Int.cast_lt
  simp [excluded, h1, h2]

/-! ### Claim C1 -/

/-- C1, counterexample: consuming the ten samples `1, …, 10` into the startup
all-zero window leaves the window `[1, 10, 9, 8, 7, 6, 5, 4, 3, 2]`, not the
claimed recency order `[10, 9, 8, 7, 6, 5, 4, 3, 2, 1]`: the newest sample
ends up at index 1, not at the front, and the oldest retained sample sits at
index 0. -/
theorem window_front_counterexample :
    consumeAll [1, 2, 3, 4, 5, 6, 7, 8, 9, 10] (List.replicate 10 0) =
        [1, 10, 9, 8, 7, 6, 5, 4, 3, 2] ∧
    consumeAll [1, 2, 3, 4, 5, 6, 7, 8, 9, 10] (List.replicate 10 0) ≠
        [10, 9, 8, 7, 6, 5, 4, 3, 2, 1] := by decide

/-- C1, amended: after `k ≥ N` publishes (samples `t ++ u` with `u` the last
ten) the window contains exactly the last ten published samples — but not
newest-first: the oldest of the ten is at index 0 and the newest at index 1,
with recency descending circularly from index 1. -/
theorem window_contains_last_ten (t u d : List Int)
    (hu : u.length = 10) (hd : d.length = 10) :
    consumeAll (t ++ u) d = u.headD 0 :: u.tail.reverse ∧
    (consumeAll (t ++ u) d).Perm u := by
  obtain ⟨u0, u1, u2, u3, u4, u5, u6, u7, u8, u9, rfl⟩ := exists_len_ten u hu
  have hw : (consumeAll t d).length = 10 := consumeAll_length t d hd
  obtain ⟨w0, w1, w2, w3, w4, w5, w6, w7, w8, w9, hw'⟩ := exists_len_ten _ hw
  rw [consumeAll_append, hw']
  constructor
  · exact consumeAll_ten u0 u1 u2 u3 u4 u5 u6 u7 u8 u9 w0 w1 w2 w3 w4 w5 w6 w7 w8 w9
  · rw [consumeAll_ten]
    exact List.Perm.cons u0 (List.reverse_perm [u1, u2, u3, u4, u5, u6, u7, u8, u9])

/-- C1, witness: twelve samples published into the startup window; the window
holds exactly the last ten, oldest at index 0, newest at index 1. -/
theorem window_contains_last_ten_witness :
    consumeAll ([1, 2] ++ [3, 4, 5, 6, 7, 8, 9, 10, 11, 12]) (List.replicate 10 0) =
        [3, 4, 5, 6, 7, 8, 9, 10, 11, 12].headD 0 ::
          [3, 4, 5, 6, 7, 8, 9, 10, 11, 12].tail.reverse ∧
    (consumeAll ([1, 2] ++ [3, 4, 5, 6, 7, 8, 9, 10, 11, 12])
        (List.replicate 10 0)).Perm [3, 4, 5, 6, 7, 8, 9, 10, 11, 12] :=
  window_contains_last_ten [1, 2] [3, 4, 5, 6, 7, 8, 9, 10, 11, 12]
    (List.replicate 10 0) (by decide) (by decide)

/-! ### Claim C2 -/

/-- C2: for every window, pass 2 excludes exactly the entries `v` with
`v < (9/10)·avg1` or `v > (11/10)·avg1` (inclusive band, `avg1` fixed before
the pass), divides the sum of the remaining entries by their count with
truncation toward zero, yields 0 when no entry lies in the band, and when
`avg1 = 0` retains exactly the zero entries. -/
theorem pass2_band (d : List Int) :
    (∀ v : Int, excluded (avg1 d) v = true ↔
        ((v : ℚ) < 9 / 10 * (avg1 d : ℚ) ∨ 11 / 10 * (avg1 d : ℚ) < (v : ℚ))) ∧
    (retained d (avg1 d) ≠ [] →
        avg2 d = Int.tdiv (retained d (avg1 d)).sum ((retained d (avg1 d)).length : Int)) ∧
    (retained d (avg1 d) = [] → avg2 d = 0) ∧
    (avg1 d = 0 → retained d (avg1 d) = d.filter (fun v => decide (v = 0))) := by
  refine ⟨fun v => excluded_iff (avg1 d) v, ?_, ?_, ?_⟩
  · intro h
    have h' : (retained d (avg1 d)).length ≠ 0 :=
      fun hc => h (List.length_eq_zero.mp hc)
    simp [avg2, h']
  · intro h
    simp [avg2, h]
  · intro h
    rw [retained, h]
    refine List.filter_congr ?_
    intro v hv
    rw [Bool.eq_iff_iff]
    simp [excluded]
    omega

/-- C2, witness: on the window `[0, 0]` the pass-1 average is 0 and pass 2
retains exactly the zero entries. -/
theorem pass2_band_witness :
    retained [0, 0] (avg1 [0, 0]) = List.filter (fun v => decide (v = 0)) [0, 0] :=
  (pass2_band [0, 0]).2.2.2 (by decide)

/-! ### Claim C3 -/

/-- C3: for every window of non-negative entries, `avg1` is the arithmetic
mean of the non-zero entries rounded toward zero (equivalently, their
rational mean floored, as the mean is non-negative), and is 0 when every
entry is zero. -/
theorem pass1_mean (d : List Int) (h0 : ∀ v ∈ d, 0 ≤ v) :
    ((∀ v ∈ d, v = 0) → avg1 d = 0) ∧
    (nonzeros d ≠ [] →
        avg1 d = ⌊((nonzeros d).sum : ℚ) / ((nonzeros d).length : ℚ)⌋) := by
  constructor
  · intro h
    have hnil : nonzeros d = [] := by
      rw [nonzeros, List.filter_eq_nil_iff]
      intro a ha
      simp [h a ha]
    simp [avg1, hnil]
  · intro hne
    have hlen0 : (nonzeros d).length ≠ 0 :=
      fun hc => hne (List.length_eq_zero.mp hc)
    have hs0 : 0 ≤ (nonzeros d).sum :=
      List.sum_nonneg fun v hv => h0 v ((List.filter_sublist d).subset hv)
    have hlen : (0 : Int) < ((nonzeros d).length : Int) := by
      exact_mod_cast Nat.pos_of_ne_zero hlen0
    rw [Rat.floor_intCast_div_natCast, avg1, if_pos hlen0,
      Int.tdiv_eq_ediv hs0 (le_of_lt hlen)]

/-- C3, witness: the all-zero window has pass-1 average 0, and the window
`[0, 500, 0, 0, 0, 0, 0, 0, 0, 0]` has pass-1 average `⌊500 / 1⌋ = 500`. -/
theorem pass1_mean_witness :
    avg1 (List.replicate 10 0) = 0 ∧
    avg1 [0, 500, 0, 0, 0, 0, 0, 0, 0, 0] =
      ⌊((nonzeros [0, 500, 0, 0, 0, 0, 0, 0, 0, 0]).sum : ℚ) /
        ((nonzeros [0, 500, 0, 0, 0, 0, 0, 0, 0, 0]).length : ℚ)⌋ :=
  ⟨(pass1_mean (List.replicate 10 0) (by decide)).1 (by decide),
   (pass1_mean [0, 500, 0, 0, 0, 0, 0, 0, 0, 0] (by decide)).2 (by decide)⟩

/-! ### Claim C4 -/

/-- C4, counterexample: on a failed sensor read (`adc_sample()` returns an
error) the code keeps `ab` but still executes `k_sem_give(&sem_ab)`: the
release `R1` is signalled even though no valid in-range reading was
published, contrary to the claim that the publish-and-signal step happens
only for a valid reading. -/
theorem sampler_signal_counterexample :
    thread_A_cycle 7 none = (7, true) ∧ (thread_A_cycle 7 none).2 ≠ false := by
  decide

/-- C4, amended: on every cycle the semaphore `sem_ab` is given,
unconditionally; the mailbox `ab` keeps its previous value when the read
fails or the reading exceeds 1023, and is overwritten only by a valid
in-range reading. -/
theorem sampler_publish (ab : Int) (r : Option Nat) :
    (thread_A_cycle ab r).2 = true ∧
    (r = none → (thread_A_cycle ab r).1 = ab) ∧
    (∀ v : Nat, r = some v → 1023 < v → (thread_A_cycle ab r).1 = ab) ∧
    (∀ v : Nat, r = some v → v ≤ 1023 → (thread_A_cycle ab r).1 = (v : Int)) := by
  cases r with
  | none => simp [thread_A_cycle]
  | some w =>
      refine ⟨rfl, by simp, ?_, ?_⟩
      · intro v hv hgt
        cases hv
        simp [thread_A_cycle, if_pos hgt]
      · intro v hv hle
        cases hv
        simp [thread_A_cycle, if_neg (by omega : ¬ 1023 < w)]

/-- C4, witness: a valid reading 5 overwrites `ab = 7` and the semaphore is
given. -/
theorem sampler_publish_witness :
    (thread_A_cycle 7 (some 5)).1 = (5 : Int) ∧ (thread_A_cycle 7 (some 5)).2 = true :=
  ⟨(sampler_publish 7 (some 5)).2.2.2 5 rfl (by decide), (sampler_publish 7 (some 5)).1⟩

/-! ### Claim C7 -/

/-- C7, counterexample: an overrunning cycle (`fin_time = 1500` past the
release instant `release_time = 1000`) leaves `release_time` unchanged at
1000 and skips the sleep — the next release instant is not
`previous_release + SAMP_PERIOD_MS = 2000` as the claim states. -/
theorem timing_counterexample :
    thread_A_timing 1000 1500 = (1000, false) ∧
    (thread_A_timing 1000 1500).1 ≠ 1000 + SAMP_PERIOD_MS := by decide

/-- C7, amended: the release instant advances by exactly one period per
sleep — `release_time + SAMP_PERIOD_MS` exactly when the cycle finished
before the release instant — and on an overrun (`release_time ≤ fin_time`)
the code neither sleeps nor advances `release_time`. -/
theorem timing_advance (r f : Int) :
    (f < r → thread_A_timing r f = (r + SAMP_PERIOD_MS, true)) ∧
    (r ≤ f → thread_A_timing r f = (r, false)) := by
  constructor
  · intro h
    simp [thread_A_timing, h]
  · intro h
    simp [thread_A_timing, not_lt.mpr h]

/-- C7, witness: a cycle that finishes at time 500 before the release
instant 2000 sleeps and advances the release instant to 3000. -/
theorem timing_advance_witness :
    thread_A_timing 2000 500 = (2000 + SAMP_PERIOD_MS, true) :=
  (timing_advance 2000 500).1 (by decide)

/-! ### Claim C5 -/

/-- The unsigned product `pwmPeriod_us * bc` of an in-range `bc` stays below
`2 ^ 32`, so the modular reduction is the identity and the duty is the plain
quotient. -/
theorem pwm_duty_eq (b : Nat) (h : b ≤ 1023) :
    pwm_duty b = pwmPeriod_us * b / 1023 := by
  have hle : pwmPeriod_us * b ≤ 1000 * 1023 := by
    simp only [pwmPeriod_us]
    exact Nat.mul_le_mul_left _ h
  have hlt : pwmPeriod_us * b < 2 ^ 32 := by omega
  simp only [pwm_duty, Nat.mod_eq_of_lt hlt]

/-- C5: for `FilteredValue` in `[0, 1023]` the actuator command equals the
mathematical `⌊pwmPeriod_us · bc / 1023⌋`, is monotone non-decreasing in the
filtered value, and saturates at the full period `pwmPeriod_us = 1000` when
the filtered value is 1023. -/
theorem actuator_command (b1 b2 : Nat) (h12 : b1 ≤ b2) (h2 : b2 ≤ 1023) :
    (pwm_duty b1 : ℤ) = ⌊((pwmPeriod_us * b1 : Nat) : ℚ) / ((1023 : Nat) : ℚ)⌋ ∧
    pwm_duty b1 ≤ pwm_duty b2 ∧
    pwm_duty 1023 = pwmPeriod_us := by
  have h1 : b1 ≤ 1023 := le_trans h12 h2
  refine ⟨?_, ?_, by decide⟩
  · rw [Rat.floor_natCast_div_natCast, pwm_duty_eq b1 h1]
    exact Int.natCast_div _ _
  · rw [pwm_duty_eq b1 h1, pwm_duty_eq b2 h2]
    exact Nat.div_le_div_right (Nat.mul_le_mul_left _ h12)

/-- C5, witness: the duty at 500 is the floored scaling, duties are ordered
at 500 ≤ 600, and the duty at 1023 is the full period. -/
theorem actuator_command_witness :
    (pwm_duty 500 : ℤ) = ⌊((pwmPeriod_us * 500 : Nat) : ℚ) / ((1023 : Nat) : ℚ)⌋ ∧
    pwm_duty 500 ≤ pwm_duty 600 ∧
    pwm_duty 1023 = pwmPeriod_us :=
  actuator_command 500 600 (by decide) (by decide)

/-! ### Claim C6 -/

/-- The pass-2 average of a window whose entries lie in `[0, 1023]` lies in
`[0, 1023]`: the retained entries are a subset of the window and the
truncating mean of values in the range stays in the range. -/
theorem avg2_bounds (w : List Int) (hw : ∀ v ∈ w, 0 ≤ v ∧ v ≤ 1023) :
    0 ≤ avg2 w ∧ avg2 w ≤ 1023 := by
  by_cases h : (retained w (avg1 w)).length = 0
  · simp [avg2, h]
  · have hmem : ∀ v ∈ retained w (avg1 w), 0 ≤ v ∧ v ≤ 1023 :=
      fun v hv => hw v ((List.filter_sublist w).subset hv)
    have hb := mean_bounds _ hmem h
    simpa [avg2, h] using hb

/-- C6: `bc` starts at 0, and one thread-B step on a valid sample and a
window of entries in `[0, MAX_RAW]` produces a window whose entries are
again in `[0, MAX_RAW]` and a filtered value in `[0, MAX_RAW]` — the range
is preserved by every filter iteration. -/
theorem filtered_value_range (ab : Int) (d : List Int)
    (hab : 0 ≤ ab ∧ ab ≤ MAX_RAW) (hd : ∀ v ∈ d, 0 ≤ v ∧ v ≤ MAX_RAW) :
    bc_init = 0 ∧
    (∀ v ∈ (thread_B_step ab d).1, 0 ≤ v ∧ v ≤ MAX_RAW) ∧
    0 ≤ (thread_B_step ab d).2 ∧ (thread_B_step ab d).2 ≤ MAX_RAW := by
  have hmem : ∀ v ∈ consume ab d, 0 ≤ v ∧ v ≤ 1023 := by
    intro v hv
    rcases consume_mem ab d v hv with h | h
    · rw [h]; exact hab
    · exact hd v h
  have hb := avg2_bounds (consume ab d) hmem
  exact ⟨rfl, hmem, hb.1, hb.2⟩

/-- C6, witness: consuming the valid sample 500 into the startup window
yields a filtered value in `[0, MAX_RAW]`, and `bc` starts at 0. -/
theorem filtered_value_range_witness :
    bc_init = 0 ∧
    0 ≤ (thread_B_step 500 (List.replicate 10 0)).2 ∧
    (thread_B_step 500 (List.replicate 10 0)).2 ≤ MAX_RAW :=
  ⟨(filtered_value_range 500 (List.replicate 10 0) (by decide) (by decide)).1,
   (filtered_value_range 500 (List.replicate 10 0) (by decide) (by decide)).2.2.1,
   (filtered_value_range 500 (List.replicate 10 0) (by decide) (by decide)).2.2.2⟩

/-! ### Claim C8 -/

/-- C8: consuming the published sample 500 into the all-zero startup window
gives the window `[0, 500, 0, …, 0]`, pass-1 average 500 (one non-zero
entry), trimming band `[450, 550]` (449 and 551 are excluded, 450 and 550
retained), pass-2 average 500, hence filtered value 500, and the actuator
command `⌊1000 · 500 / 1023⌋ = 488`. -/
theorem startup_scenario_500 :
    thread_B_step 500 (List.replicate 10 0) =
        ([0, 500, 0, 0, 0, 0, 0, 0, 0, 0], 500) ∧
    avg1 (consume 500 (List.replicate 10 0)) = 500 ∧
    excluded 500 449 = true ∧ excluded 500 450 = false ∧
    excluded 500 550 = false ∧ excluded 500 551 = true ∧
    pwm_duty 500 = pwmPeriod_us * 500 / 1023 ∧
    pwm_duty 500 = 488 := by decide

/-! ### Claim C9 -/

/-- C9: both filter passes depend only on the multiset of window entries —
permuting the window changes neither the pass-1 average nor the published
pass-2 average. -/
theorem filter_perm_invariant (d d' : List Int) (h : d.Perm d') :
    avg1 d = avg1 d' ∧ avg2 d = avg2 d' := by
  have h1 : (nonzeros d).Perm (nonzeros d') := h.filter _
  have havg : avg1 d = avg1 d' := by
    simp only [avg1, h1.length_eq, h1.sum_eq]
  refine ⟨havg, ?_⟩
  have h2 : (retained d (avg1 d')).Perm (retained d' (avg1 d')) := h.filter _
  simp only [avg2, havg, h2.length_eq, h2.sum_eq]

/-- C9, witness: swapping the two entries of `[0, 500]` changes neither
average. -/
theorem filter_perm_invariant_witness :
    avg1 [0, 500] = avg1 [500, 0] ∧ avg2 [0, 500] = avg2 [500, 0] :=
  filter_perm_invariant [0, 500] [500, 0] (by decide)

/-! ### Claim C10 -/

/-- C10: for `bc` in `[0, 1023]` the 32-bit unsigned product is at most
`1023000 < 2 ^ 32`, so the modular computation does not wrap and the issued
duty equals the exact mathematical `⌊1000 · bc / 1023⌋`. -/
theorem pwm_no_overflow (b : Nat) (h : b ≤ 1023) :
    pwmPeriod_us * b ≤ 1023000 ∧ 1023000 < 2 ^ 32 ∧
    pwm_duty b = pwmPeriod_us * b / 1023 ∧
    (pwm_duty b : ℤ) = ⌊((pwmPeriod_us * b : Nat) : ℚ) / ((1023 : Nat) : ℚ)⌋ := by
  refine ⟨?_, by norm_num, pwm_duty_eq b h, ?_⟩
  · simp only [pwmPeriod_us]
    omega
  · rw [Rat.floor_natCast_div_natCast, pwm_duty_eq b h]
    exact Int.natCast_div _ _

/-- C10, witness: at the maximal filtered value 1023 the product is exactly
1023000, below `2 ^ 32`, and the duty is the exact floored scaling. -/
theorem pwm_no_overflow_witness :
    pwmPeriod_us * 1023 ≤ 1023000 ∧ 1023000 < 2 ^ 32 ∧
    pwm_duty 1023 = pwmPeriod_us * 1023 / 1023 ∧
    (pwm_duty 1023 : ℤ) = ⌊((pwmPeriod_us * 1023 : Nat) : ℚ) / ((1023 : Nat) : ℚ)⌋ :=
  pwm_no_overflow 1023 (by decide)

end Assignment5
